import Mathlib

/-!
Shallow embedding of the HTTPS request/response cycle of
`src/mbed-http/source/https_request.h` (class `HttpsRequest`).

External calls (mbed TLS, the TCP socket, the response parser) are modelled
by an oracle script: each field of `SendScript` supplies the return value of
the corresponding external call, in the order `HttpsRequest::send` makes
them.  The observable state of a request-cycle instance is `St`: the single
last-error code `_error`, whether the TCP socket is open, and whether the
response parser has been finalized.  `sendModel` mirrors the control flow of
`HttpsRequest::send` line by line; it also records the trace of
`mbedtls_ssl_write` calls (`WriteEv`) and the indices of the
`recv_buffer[_bpos] = 0` null-terminator stores performed in the read loop.
-/

namespace HttpsRequest

/-- mbed TLS constant `MBEDTLS_ERR_SSL_WANT_READ` (-0x6900). -/
def MBEDTLS_ERR_SSL_WANT_READ : Int := -26880

/-- mbed TLS constant `MBEDTLS_ERR_SSL_WANT_WRITE` (-0x6880). -/
def MBEDTLS_ERR_SSL_WANT_WRITE : Int := -26624

/-- mbed OS constant `NSAPI_ERROR_OK`. -/
def NSAPI_ERROR_OK : Int := 0

/-- mbed OS constant `NSAPI_ERROR_WOULD_BLOCK`. -/
def NSAPI_ERROR_WOULD_BLOCK : Int := -3001

/-- Modelled from the spec: the constant `HTTP_RECEIVE_BUFFER_SIZE` is
defined outside `src/` (in the http-parser part of the mbed-http library);
the spec gives the reference receive-buffer size as 1 KiB. -/
def HTTP_RECEIVE_BUFFER_SIZE : Nat := 1024

/-- The chunking threshold used by the body-write loop of `send`
(literal `4000` at line 209 of `https_request.h`). -/
def CHUNK_SIZE : Nat := 4000

/-- True iff `ret` is one of the two retryable want-read/want-write codes. -/
def isWant (r : Int) : Bool :=
  r == MBEDTLS_ERR_SSL_WANT_READ || r == MBEDTLS_ERR_SSL_WANT_WRITE

/-- Observable state of an `HttpsRequest` instance: the single `_error`
field, whether the TCP socket is open (connected and not closed), and
whether `parser.finish()` has been called. -/
structure St where
  error : Int
  socketOpen : Bool
  parserFinished : Bool
deriving DecidableEq, Repr

/-- Embeds `HttpsRequest::onError`: closes the socket and records the error code. -/
def onError (s : St) (e : Int) : St :=
  { s with socketOpen := false, error := e }

/-- Embeds `HttpsRequest::get_error`: returns the `_error` field. -/
def get_error (s : St) : Int :=
  s.error

/-- Embeds `HttpsRequest::close`: closes the TCP socket. -/
def close (s : St) : St :=
  { s with socketOpen := false }

/-- Embeds `HttpsRequest::check_mbedtls_ssl_write ret`: returns `true` (caller must
return NULL) iff `ret < 0`; fatal codes go through `onError` (closing the
socket, error `-1`), want-read/want-write only records `_error = ret`. -/
def check_mbedtls_ssl_write (s : St) (ret : Int) : Bool × St :=
  if ret < 0 then
    if isWant ret then (true, { s with error := ret })
    else (true, onError s (-1))
  else (false, s)

/-- Static BIO receive callback `HttpsRequest::ssl_recv`, as a function of
the value returned by `socket->recv`. -/
def ssl_recv (recvRet : Int) : Int :=
  if recvRet = NSAPI_ERROR_WOULD_BLOCK then MBEDTLS_ERR_SSL_WANT_READ
  else if recvRet < 0 then -1
  else recvRet

/-- Static BIO send callback `HttpsRequest::ssl_send`, as a function of the
value returned by `socket->send` and the requested length `len`.  Note the
would-block branch returns `len` itself. -/
def ssl_send (sendRet : Int) (len : Nat) : Int :=
  if sendRet = NSAPI_ERROR_WOULD_BLOCK then (len : Int)
  else if sendRet < 0 then -1
  else sendRet

/-- One `mbedtls_ssl_write` call made by `send`: the serialized
request (header) write, a body-chunk write carrying its data, or the
trailing CRLF write. -/
inductive WriteEv where
  | header : WriteEv
  | chunk (data : List Nat) : WriteEv
  | crlf : WriteEv
deriving DecidableEq, Repr

/-- The body-chunk payloads of a write trace, in order. -/
def chunkDatas : List WriteEv → List (List Nat)
  | [] => []
  | WriteEv.chunk d :: rest => d :: chunkDatas rest
  | _ :: rest => chunkDatas rest

/-- The successive `mbedtls_ssl_write` payloads produced by the body-write
loop of `send`: `min body_size 4000` bytes per call, advancing `send_buf`
by the same amount, until `body_size` reaches 0. -/
def bodyChunks (body : List Nat) : List (List Nat) :=
  if body = [] then []
  else body.take CHUNK_SIZE :: bodyChunks (body.drop CHUNK_SIZE)
termination_by body.length
decreasing_by
  simp only [List.length_drop]
  have : body.length ≠ 0 := by
    intro h
    exact (by assumption : ¬ body = []) (List.length_eq_zero.mp h)
  simp [CHUNK_SIZE]
  omega

/-- Outcome of the body-write loop: normal exit (with the value left in
`ret`, needed by the stale check after the loop), early `return NULL`
(`check_mbedtls_ssl_write` returned true), or an exhausted oracle script
(models a call whose result was never scripted). -/
inductive BodyOut where
  | ok (s : St) (lastRet : Int) (evs : List WriteEv) : BodyOut
  | abort (s : St) (evs : List WriteEv) : BodyOut
  | stuck (evs : List WriteEv) : BodyOut
deriving DecidableEq, Repr

/-- The body-write loop of `send` (lines 207-217): while `body_size > 0`,
write `min body_size 4000` bytes, advance, and bail out if
`check_mbedtls_ssl_write` says so.  `rets` scripts the successive
`mbedtls_ssl_write` return values, one per iteration; `lastRet` is the
value `ret` holds on entry (the header-write return). -/
def bodyLoop (s : St) (body : List Nat) (rets : List Int) (lastRet : Int) :
    BodyOut :=
  match rets with
  | [] => if body = [] then .ok s lastRet [] else .stuck []
  | r :: rest =>
    if body = [] then .ok s lastRet []
    else
      match check_mbedtls_ssl_write s r with
      | (true, s1) => .abort s1 [WriteEv.chunk (body.take CHUNK_SIZE)]
      | (false, s1) =>
        match bodyLoop s1 (body.drop CHUNK_SIZE) rest r with
        | .ok s2 lr evs => .ok s2 lr (WriteEv.chunk (body.take CHUNK_SIZE) :: evs)
        | .abort s2 evs => .abort s2 (WriteEv.chunk (body.take CHUNK_SIZE) :: evs)
        | .stuck evs => .stuck (WriteEv.chunk (body.take CHUNK_SIZE) :: evs)

/-- How a modelled `send` terminates: returning `_response`, returning
NULL, or an exhausted oracle script. -/
inductive SendRes where
  | ok : SendRes
  | fail : SendRes
  | stuck : SendRes
deriving DecidableEq, Repr

/-- The success epilogue of the read loop: `parser.finish()` then
`_tcpsocket->close()` (lines 281-283). -/
def finishSuccess (s : St) : St :=
  { s with parserFinished := true, socketOpen := false }

/-- The response-read loop of `send` (lines 251-286).  Each script entry is
the `mbedtls_ssl_read` return value paired with the byte count the parser
reports consuming when the read succeeds.  The third component collects the
indices of the `recv_buffer[_bpos] = 0` stores. -/
def readLoop (s : St) : List (Int × Nat) → SendRes × St × List Nat
  | [] => (.stuck, s, [])
  | (ret, nparsed) :: rest =>
    if 0 < ret then
      -- recv_buffer[_bpos] = 0 with _bpos = (size_t)ret
      if nparsed ≠ ret.toNat then
        (.fail, { s with error := -2101 }, [ret.toNat])
      else if ret < (HTTP_RECEIVE_BUFFER_SIZE : Int) then
        (.ok, finishSuccess s, [ret.toNat])
      else
        ((readLoop s rest).1, (readLoop s rest).2.1, ret.toNat :: (readLoop s rest).2.2)
    else if ret < 0 then
      if isWant ret then (.fail, { s with error := ret }, [])
      else (.fail, onError s (-1), [])
    else (.ok, finishSuccess s, [])

/-- The oracle script for one call to `send`: return values of the
external calls, in program order.  `bodyWriteRets` scripts the body-chunk
writes, one entry per loop iteration; `reads` scripts the read loop. -/
structure SendScript where
  drbgSeedRet : Int
  crtParseRet : Int
  configRet : Int
  setupRet : Int
  connectRet : Int
  handshakeRet : Int
  headerWriteRet : Int
  bodyWriteRets : List Int
  crlfWriteRet : Int
  reads : List (Int × Nat)
deriving DecidableEq, Repr

/-- Result of a modelled `send`: how it returned, the final instance
state, the `mbedtls_ssl_write` trace, and the null-terminator store
indices of the read loop. -/
structure SendResult where
  res : SendRes
  st : St
  writes : List WriteEv
  stores : List Nat
deriving DecidableEq, Repr

/-- Instance state on entry to `send`: `_error` holds whatever
uninitialized value `err0` it happens to contain; socket not yet
connected. -/
def initSt (err0 : Int) : St :=
  { error := err0, socketOpen := false, parserFinished := false }

/-- Instance state right after `_tcpsocket->connect` succeeds. -/
def connectedSt (err0 : Int) : St :=
  { error := err0, socketOpen := true, parserFinished := false }

/-- Embeds `HttpsRequest::send`, line by line.  `err0` is the value the
uninitialized `_error` member happens to hold on entry; `body` the request
body bytes; `sc` the oracle script. -/
def sendModel (err0 : Int) (body : List Nat) (sc : SendScript) : SendResult :=
  -- mbedtls_ctr_drbg_seed
  if sc.drbgSeedRet ≠ 0 then ⟨.fail, { initSt err0 with error := sc.drbgSeedRet }, [], []⟩
  -- mbedtls_x509_crt_parse
  else if sc.crtParseRet ≠ 0 then ⟨.fail, { initSt err0 with error := sc.crtParseRet }, [], []⟩
  -- mbedtls_ssl_config_defaults
  else if sc.configRet ≠ 0 then ⟨.fail, { initSt err0 with error := sc.configRet }, [], []⟩
  -- mbedtls_ssl_setup
  else if sc.setupRet ≠ 0 then ⟨.fail, { initSt err0 with error := sc.setupRet }, [], []⟩
  -- _tcpsocket->connect: on failure, onError closes and records -1
  else if sc.connectRet ≠ NSAPI_ERROR_OK then ⟨.fail, onError (initSt err0) (-1), [], []⟩
  -- mbedtls_ssl_handshake
  else if sc.handshakeRet < 0 then
    if isWant sc.handshakeRet then
      ⟨.fail, { connectedSt err0 with error := sc.handshakeRet }, [], []⟩
    else ⟨.fail, onError (connectedSt err0) (-1), [], []⟩
  -- mbedtls_ssl_write of the built request, then check_mbedtls_ssl_write
  else if (check_mbedtls_ssl_write (connectedSt err0) sc.headerWriteRet).1 then
    ⟨.fail, (check_mbedtls_ssl_write (connectedSt err0) sc.headerWriteRet).2,
     [WriteEv.header], []⟩
  else
    match bodyLoop (check_mbedtls_ssl_write (connectedSt err0) sc.headerWriteRet).2
        body sc.bodyWriteRets sc.headerWriteRet with
    | .stuck evs =>
      ⟨.stuck, (check_mbedtls_ssl_write (connectedSt err0) sc.headerWriteRet).2,
       WriteEv.header :: evs, []⟩
    | .abort s3 evs => ⟨.fail, s3, WriteEv.header :: evs, []⟩
    | .ok s3 lastRet evs =>
      -- mbedtls_ssl_write of the trailing CRLF: its return value is
      -- discarded; check_mbedtls_ssl_write re-examines the stale `ret`
      if (check_mbedtls_ssl_write s3 lastRet).1 then
        ⟨.fail, (check_mbedtls_ssl_write s3 lastRet).2,
         WriteEv.header :: evs ++ [WriteEv.crlf], []⟩
      else
        ⟨(readLoop (check_mbedtls_ssl_write s3 lastRet).2 sc.reads).1,
         (readLoop (check_mbedtls_ssl_write s3 lastRet).2 sc.reads).2.1,
         WriteEv.header :: evs ++ [WriteEv.crlf],
         (readLoop (check_mbedtls_ssl_write s3 lastRet).2 sc.reads).2.2⟩

/-- Bounds of the `recv_buffer[idx]` store: the buffer holds
`HTTP_RECEIVE_BUFFER_SIZE` bytes, valid indices `0 ≤ idx < size`. -/
def storeInBounds (idx : Nat) : Prop :=
  idx < HTTP_RECEIVE_BUFFER_SIZE

instance (idx : Nat) : Decidable (storeInBounds idx) := by
  unfold storeInBounds
  infer_instance

/-! ### Helper lemmas -/

theorem isWant_neg (r : Int) (h : isWant r = true) : r < 0 := by
  simp only [isWant, Bool.or_eq_true, beq_iff_eq] at h
  rcases h with h | h <;> simp [h, MBEDTLS_ERR_SSL_WANT_READ, MBEDTLS_ERR_SSL_WANT_WRITE]

theorem St_eq_of (s t : St) (he : s.error = t.error) (ho : s.socketOpen = t.socketOpen)
    (hp : s.parserFinished = t.parserFinished) : s = t := by
  cases s
  cases t
  simp_all

theorem check_nonneg (s : St) (r : Int) (h : 0 ≤ r) :
    check_mbedtls_ssl_write s r = (false, s) := by
  unfold check_mbedtls_ssl_write
  rw [if_neg (by omega)]

theorem check_fst (s : St) (r : Int) :
    (check_mbedtls_ssl_write s r).1 = decide (r < 0) := by
  unfold check_mbedtls_ssl_write
  by_cases hr : r < 0
  · rw [if_pos hr]
    by_cases hw : isWant r = true <;> simp [hw, hr]
  · rw [if_neg hr]
    simp [hr]

theorem check_pair_false (s s1 : St) (r : Int)
    (h : check_mbedtls_ssl_write s r = (false, s1)) : s1 = s ∧ 0 ≤ r := by
  unfold check_mbedtls_ssl_write at h
  by_cases hr : r < 0
  · rw [if_pos hr] at h
    by_cases hw : isWant r = true
    · rw [if_pos hw] at h
      simp at h
    · rw [if_neg hw] at h
      simp at h
  · rw [if_neg hr] at h
    simp only [Prod.mk.injEq] at h
    exact ⟨h.2.symm, by omega⟩

theorem check_pair_true (s s1 : St) (r : Int)
    (h : check_mbedtls_ssl_write s r = (true, s1)) :
    r < 0 ∧ ((isWant r = true ∧ s1 = { s with error := r })
             ∨ (isWant r = false ∧ s1 = onError s (-1))) := by
  unfold check_mbedtls_ssl_write at h
  by_cases hr : r < 0
  · rw [if_pos hr] at h
    refine ⟨hr, ?_⟩
    by_cases hw : isWant r = true
    · rw [if_pos hw] at h
      simp only [Prod.mk.injEq] at h
      exact Or.inl ⟨hw, h.2.symm⟩
    · rw [if_neg hw] at h
      simp only [Prod.mk.injEq] at h
      exact Or.inr ⟨by simpa using hw, h.2.symm⟩
  · rw [if_neg hr] at h
    simp at h

theorem bodyChunks_eq (b : List Nat) :
    bodyChunks b =
      if b = [] then [] else b.take CHUNK_SIZE :: bodyChunks (b.drop CHUNK_SIZE) := by
  rw [bodyChunks]

theorem bodyChunks_nil : bodyChunks [] = [] := by
  rw [bodyChunks_eq]
  simp

theorem bodyChunks_eq_nil_iff (b : List Nat) : bodyChunks b = [] ↔ b = [] := by
  constructor
  · intro h
    by_contra hb
    rw [bodyChunks_eq, if_neg hb] at h
    exact List.cons_ne_nil _ _ h
  · intro h
    rw [h]
    exact bodyChunks_nil

theorem bodyChunks_join (b : List Nat) : (bodyChunks b).flatten = b := by
  induction b using bodyChunks.induct with
  | case1 => simp [bodyChunks_nil]
  | case2 b hb ih =>
    rw [bodyChunks_eq, if_neg hb]
    simp only [List.flatten_cons, ih]
    exact List.take_append_drop _ _

theorem bodyChunks_mem_length (b c : List Nat) (h : c ∈ bodyChunks b) :
    c.length ≤ CHUNK_SIZE := by
  induction b using bodyChunks.induct with
  | case1 =>
    rw [bodyChunks_nil] at h
    simp at h
  | case2 b hb ih =>
    rw [bodyChunks_eq, if_neg hb] at h
    rcases List.mem_cons.mp h with h1 | h1
    · rw [h1]
      simp only [List.length_take]
      exact min_le_left _ _
    · exact ih h1

theorem bodyChunks_two_le (b : List Nat) (h : CHUNK_SIZE < b.length) :
    2 ≤ (bodyChunks b).length := by
  have hb : b ≠ [] := by
    intro he
    rw [he] at h
    simp at h
  rw [bodyChunks_eq, if_neg hb]
  have hd : b.drop CHUNK_SIZE ≠ [] := by
    intro he
    have := congrArg List.length he
    simp only [List.length_drop, List.length_nil] at this
    omega
  have : bodyChunks (b.drop CHUNK_SIZE) ≠ [] := by
    intro he
    exact hd ((bodyChunks_eq_nil_iff _).mp he)
  rcases List.exists_cons_of_ne_nil this with ⟨c, cs, hc⟩
  rw [hc]
  simp

theorem chunkDatas_map_chunk (l : List (List Nat)) :
    chunkDatas (l.map WriteEv.chunk) = l := by
  induction l with
  | nil => rfl
  | cons c cs ih => simp [chunkDatas, ih]

theorem check_pos_want (s : St) (r : Int) (hr : r < 0) (hw : isWant r = true) :
    check_mbedtls_ssl_write s r = (true, { s with error := r }) := by
  unfold check_mbedtls_ssl_write
  rw [if_pos hr, if_pos hw]

theorem check_pos_fatal (s : St) (r : Int) (hr : r < 0) (hw : isWant r = false) :
    check_mbedtls_ssl_write s r = (true, onError s (-1)) := by
  unfold check_mbedtls_ssl_write
  rw [if_pos hr, if_neg (by simp [hw])]

theorem bodyLoop_ok (rets : List Int) (s : St) (body : List Nat) (lr lr' : Int)
    (s' : St) (evs : List WriteEv)
    (h : bodyLoop s body rets lr = BodyOut.ok s' lr' evs) :
    s' = s ∧ evs = (bodyChunks body).map WriteEv.chunk ∧ (0 ≤ lr → 0 ≤ lr') := by
  induction rets generalizing s body lr lr' s' evs with
  | nil =>
    simp only [bodyLoop] at h
    by_cases hb : body = []
    · rw [if_pos hb] at h
      simp only [BodyOut.ok.injEq] at h
      obtain ⟨h1, h2, h3⟩ := h
      refine ⟨h1.symm, ?_, ?_⟩
      · rw [hb, bodyChunks_nil, ← h3]
        rfl
      · intro hx
        rw [← h2]
        exact hx
    · rw [if_neg hb] at h
      simp at h
  | cons r rest ih =>
    simp only [bodyLoop] at h
    by_cases hb : body = []
    · rw [if_pos hb] at h
      simp only [BodyOut.ok.injEq] at h
      obtain ⟨h1, h2, h3⟩ := h
      refine ⟨h1.symm, ?_, ?_⟩
      · rw [hb, bodyChunks_nil, ← h3]
        rfl
      · intro hx
        rw [← h2]
        exact hx
    · rw [if_neg hb] at h
      rcases hc : check_mbedtls_ssl_write s r with ⟨b1, s1⟩
      rw [hc] at h
      cases b1 with
      | true =>
        dsimp only [] at h
        simp at h
      | false =>
        obtain ⟨hs1, hr⟩ := check_pair_false s s1 r hc
        rw [hs1] at h
        dsimp only [] at h
        rcases hbl : bodyLoop s (body.drop CHUNK_SIZE) rest r with
          ⟨s2, lr2, evs2⟩ | ⟨s2, evs2⟩ | evs2 <;> rw [hbl] at h <;> dsimp only [] at h
        · simp only [BodyOut.ok.injEq] at h
          obtain ⟨h1, h2, h3⟩ := h
          obtain ⟨ha, hbb, hcc⟩ := ih s (body.drop CHUNK_SIZE) r lr2 s2 evs2 hbl
          refine ⟨h1 ▸ ha, ?_, ?_⟩
          · rw [← h3, bodyChunks_eq, if_neg hb, hbb]
            rfl
          · intro _
            rw [← h2]
            exact hcc hr
        · simp at h
        · simp at h

theorem bodyLoop_abort (rets : List Int) (s : St) (body : List Nat) (lr : Int)
    (s' : St) (evs : List WriteEv)
    (h : bodyLoop s body rets lr = BodyOut.abort s' evs) :
    s' = onError s (-1) ∨ ∃ r, isWant r = true ∧ s' = { s with error := r } := by
  induction rets generalizing s body lr s' evs with
  | nil =>
    simp only [bodyLoop] at h
    by_cases hb : body = [] <;> simp [hb] at h
  | cons r rest ih =>
    simp only [bodyLoop] at h
    by_cases hb : body = []
    · rw [if_pos hb] at h
      simp at h
    · rw [if_neg hb] at h
      rcases hc : check_mbedtls_ssl_write s r with ⟨b1, s1⟩
      rw [hc] at h
      cases b1 with
      | true =>
        dsimp only [] at h
        simp only [BodyOut.abort.injEq] at h
        obtain ⟨h1, -⟩ := h
        obtain ⟨-, hcase⟩ := check_pair_true s s1 r hc
        rcases hcase with ⟨hw, hs⟩ | ⟨hw, hs⟩
        · right
          exact ⟨r, hw, h1 ▸ hs⟩
        · left
          exact h1 ▸ hs
      | false =>
        obtain ⟨hs1, -⟩ := check_pair_false s s1 r hc
        rw [hs1] at h
        dsimp only [] at h
        rcases hbl : bodyLoop s (body.drop CHUNK_SIZE) rest r with
          ⟨s2, lr2, evs2⟩ | ⟨s2, evs2⟩ | evs2 <;> rw [hbl] at h <;> dsimp only [] at h
        · simp at h
        · simp only [BodyOut.abort.injEq] at h
          obtain ⟨h1, -⟩ := h
          exact h1 ▸ ih s (body.drop CHUNK_SIZE) r s2 evs2 hbl
        · simp at h

theorem bodyLoop_all_ok (rets : List Int) (s : St) (body : List Nat) (lr : Int)
    (hr : ∀ r ∈ rets, 0 ≤ r) (hlen : (bodyChunks body).length ≤ rets.length) :
    ∃ lr', bodyLoop s body rets lr =
      BodyOut.ok s lr' ((bodyChunks body).map WriteEv.chunk) := by
  induction rets generalizing body lr with
  | nil =>
    have hb : body = [] := by
      have : bodyChunks body = [] := by
        cases hx : bodyChunks body with
        | nil => rfl
        | cons c cs =>
          rw [hx] at hlen
          simp at hlen
      exact (bodyChunks_eq_nil_iff _).mp this
    refine ⟨lr, ?_⟩
    simp only [bodyLoop, if_pos hb]
    rw [hb, bodyChunks_nil]
    rfl
  | cons r rest ih =>
    by_cases hb : body = []
    · refine ⟨lr, ?_⟩
      simp only [bodyLoop, if_pos hb]
      rw [hb, bodyChunks_nil]
      rfl
    · have h0r : (0:Int) ≤ r := hr r (List.mem_cons_self r rest)
      have hlen' : (bodyChunks (body.drop CHUNK_SIZE)).length ≤ rest.length := by
        rw [bodyChunks_eq, if_neg hb] at hlen
        simpa using hlen
      obtain ⟨lr2, hok⟩ := ih (body.drop CHUNK_SIZE) r
        (fun x hx => hr x (List.mem_cons_of_mem r hx)) hlen'
      have hbc : bodyChunks body =
          body.take CHUNK_SIZE :: bodyChunks (body.drop CHUNK_SIZE) := by
        rw [bodyChunks_eq, if_neg hb]
      refine ⟨lr2, ?_⟩
      simp only [bodyLoop, if_neg hb]
      rw [check_nonneg s r h0r]
      dsimp only []
      rw [hok]
      dsimp only []
      rw [hbc]
      rfl

theorem bodyLoop_congr (rets : List Int) (s t : St) (body : List Nat) (lr : Int)
    (hso : s.socketOpen = t.socketOpen) (hpf : s.parserFinished = t.parserFinished) :
    (∀ s' lr' evs, bodyLoop s body rets lr = BodyOut.ok s' lr' evs →
        bodyLoop t body rets lr = BodyOut.ok t lr' evs)
    ∧ (∀ s' evs, bodyLoop s body rets lr = BodyOut.abort s' evs →
        bodyLoop t body rets lr = BodyOut.abort s' evs)
    ∧ (∀ evs, bodyLoop s body rets lr = BodyOut.stuck evs →
        bodyLoop t body rets lr = BodyOut.stuck evs) := by
  induction rets generalizing body lr with
  | nil =>
    by_cases hb : body = []
    · refine ⟨fun s' lr' evs h => ?_, fun s' evs h => ?_, fun evs h => ?_⟩ <;>
        simp only [bodyLoop, if_pos hb] at h ⊢
      · simp only [BodyOut.ok.injEq] at h ⊢
        exact ⟨trivial, h.2.1, h.2.2⟩
      · simp at h
      · simp at h
    · refine ⟨fun s' lr' evs h => ?_, fun s' evs h => ?_, fun evs h => ?_⟩ <;>
        simp only [bodyLoop, if_neg hb] at h ⊢
      · simp at h
      · simp at h
      · exact h
  | cons r rest ih =>
    by_cases hb : body = []
    · refine ⟨fun s' lr' evs h => ?_, fun s' evs h => ?_, fun evs h => ?_⟩ <;>
        simp only [bodyLoop, if_pos hb] at h ⊢
      · simp only [BodyOut.ok.injEq] at h ⊢
        exact ⟨trivial, h.2.1, h.2.2⟩
      · simp at h
      · simp at h
    · by_cases hr : r < 0
      · by_cases hw : isWant r = true
        · refine ⟨fun s' lr' evs h => ?_, fun s' evs h => ?_, fun evs h => ?_⟩ <;>
            simp only [bodyLoop, if_neg hb] at h ⊢ <;>
            rw [check_pos_want s r hr hw] at h <;>
            rw [check_pos_want t r hr hw] <;>
            dsimp only [] at h ⊢
          · simp at h
          · simp only [BodyOut.abort.injEq] at h ⊢
            obtain ⟨h1, h2⟩ := h
            refine ⟨?_, h2⟩
            rw [← h1]
            exact St_eq_of _ _ rfl hso.symm hpf.symm
          · simp at h
        · have hw' : isWant r = false := by
            rw [Bool.not_eq_true] at hw
            exact hw
          refine ⟨fun s' lr' evs h => ?_, fun s' evs h => ?_, fun evs h => ?_⟩ <;>
            simp only [bodyLoop, if_neg hb] at h ⊢ <;>
            rw [check_pos_fatal s r hr hw'] at h <;>
            rw [check_pos_fatal t r hr hw'] <;>
            dsimp only [] at h ⊢
          · simp at h
          · simp only [BodyOut.abort.injEq] at h ⊢
            obtain ⟨h1, h2⟩ := h
            refine ⟨?_, h2⟩
            rw [← h1]
            exact St_eq_of _ _ rfl (by simp [onError]) (by simp [onError, hpf])
          · simp at h
      · have h0r : (0:Int) ≤ r := by omega
        obtain ⟨iok, iab, ist⟩ := ih (body.drop CHUNK_SIZE) r
        refine ⟨fun s' lr' evs h => ?_, fun s' evs h => ?_, fun evs h => ?_⟩ <;>
          simp only [bodyLoop, if_neg hb] at h ⊢ <;>
          rw [check_nonneg s r h0r] at h <;>
          rw [check_nonneg t r h0r] <;>
          dsimp only [] at h ⊢ <;>
          rcases hbl : bodyLoop s (body.drop CHUNK_SIZE) rest r with
            ⟨s2, lr2, evs2⟩ | ⟨s2, evs2⟩ | evs2 <;> rw [hbl] at h <;> dsimp only [] at h
        · rw [iok s2 lr2 evs2 hbl]
          dsimp only []
          simp only [BodyOut.ok.injEq] at h ⊢
          exact ⟨trivial, h.2.1, h.2.2⟩
        · simp at h
        · simp at h
        · simp at h
        · rw [iab s2 evs2 hbl]
          dsimp only []
          simp only [BodyOut.abort.injEq] at h ⊢
          exact h
        · simp at h
        · simp at h
        · simp at h
        · rw [ist evs2 hbl]
          dsimp only []
          simp only [BodyOut.stuck.injEq] at h ⊢
          exact h

theorem readLoop_ok_state (s : St) (reads : List (Int × Nat))
    (h : (readLoop s reads).1 = SendRes.ok) :
    (readLoop s reads).2.1 = finishSuccess s := by
  induction reads with
  | nil => simp [readLoop] at h
  | cons p rest ih =>
    obtain ⟨ret, np⟩ := p
    simp only [readLoop] at h ⊢
    by_cases h1 : 0 < ret
    · rw [if_pos h1] at h ⊢
      by_cases h2 : np ≠ ret.toNat
      · rw [if_pos h2] at h
        simp at h
      · rw [if_neg h2] at h ⊢
        by_cases h3 : ret < (HTTP_RECEIVE_BUFFER_SIZE : Int)
        · rw [if_pos h3]
        · rw [if_neg h3] at h ⊢
          exact ih h
    · rw [if_neg h1] at h ⊢
      by_cases h4 : ret < 0
      · rw [if_pos h4] at h
        by_cases h5 : isWant ret = true
        · rw [if_pos h5] at h
          simp at h
        · rw [if_neg h5] at h
          simp at h
      · rw [if_neg h4]

theorem readLoop_fail_state (s : St) (reads : List (Int × Nat))
    (h : (readLoop s reads).1 = SendRes.fail) :
    (readLoop s reads).2.1 = onError s (-1)
    ∨ (readLoop s reads).2.1 = { s with error := -2101 }
    ∨ ∃ r, isWant r = true ∧ (readLoop s reads).2.1 = { s with error := r } := by
  induction reads with
  | nil => simp [readLoop] at h
  | cons p rest ih =>
    obtain ⟨ret, np⟩ := p
    simp only [readLoop] at h ⊢
    by_cases h1 : 0 < ret
    · rw [if_pos h1] at h ⊢
      by_cases h2 : np ≠ ret.toNat
      · rw [if_pos h2]
        right
        left
        rfl
      · rw [if_neg h2] at h ⊢
        by_cases h3 : ret < (HTTP_RECEIVE_BUFFER_SIZE : Int)
        · rw [if_pos h3] at h
          simp at h
        · rw [if_neg h3] at h ⊢
          exact ih h
    · rw [if_neg h1] at h ⊢
      by_cases h4 : ret < 0
      · rw [if_pos h4] at h ⊢
        by_cases h5 : isWant ret = true
        · rw [if_pos h5]
          right
          right
          exact ⟨ret, h5, rfl⟩
        · rw [if_neg h5]
          left
          rfl
      · rw [if_neg h4] at h
        simp at h

theorem readLoop_stuck_state (s : St) (reads : List (Int × Nat))
    (h : (readLoop s reads).1 = SendRes.stuck) :
    (readLoop s reads).2.1 = s := by
  induction reads with
  | nil => rfl
  | cons p rest ih =>
    obtain ⟨ret, np⟩ := p
    simp only [readLoop] at h ⊢
    by_cases h1 : 0 < ret
    · rw [if_pos h1] at h ⊢
      by_cases h2 : np ≠ ret.toNat
      · rw [if_pos h2] at h
        simp at h
      · rw [if_neg h2] at h ⊢
        by_cases h3 : ret < (HTTP_RECEIVE_BUFFER_SIZE : Int)
        · rw [if_pos h3] at h
          simp at h
        · rw [if_neg h3] at h ⊢
          exact ih h
    · rw [if_neg h1] at h ⊢
      by_cases h4 : ret < 0
      · rw [if_pos h4] at h ⊢
        by_cases h5 : isWant ret = true
        · rw [if_pos h5] at h
          simp at h
        · rw [if_neg h5] at h
          simp at h
      · rw [if_neg h4] at h
        simp at h

theorem readLoop_congr (s t : St) (reads : List (Int × Nat))
    (hso : s.socketOpen = t.socketOpen) (hpf : s.parserFinished = t.parserFinished) :
    (readLoop s reads).1 = (readLoop t reads).1
    ∧ (readLoop s reads).2.2 = (readLoop t reads).2.2
    ∧ ((readLoop s reads).1 = SendRes.fail →
        (readLoop s reads).2.1 = (readLoop t reads).2.1) := by
  induction reads with
  | nil => exact ⟨rfl, rfl, fun hx => by simp [readLoop] at hx⟩
  | cons p rest ih =>
    obtain ⟨ret, np⟩ := p
    obtain ⟨i1, i2, i3⟩ := ih
    simp only [readLoop]
    by_cases h1 : 0 < ret
    · simp only [if_pos h1]
      by_cases h2 : np ≠ ret.toNat
      · simp only [if_pos h2]
        exact ⟨trivial, trivial, fun _ => St_eq_of _ _ rfl hso hpf⟩
      · simp only [if_neg h2]
        by_cases h3 : ret < (HTTP_RECEIVE_BUFFER_SIZE : Int)
        · simp only [if_pos h3]
          exact ⟨trivial, trivial, fun hx => by simp at hx⟩
        · simp only [if_neg h3]
          exact ⟨i1, by rw [i2], fun hf => i3 hf⟩
    · simp only [if_neg h1]
      by_cases h4 : ret < 0
      · simp only [if_pos h4]
        by_cases h5 : isWant ret = true
        · simp only [if_pos h5]
          exact ⟨trivial, trivial, fun _ => St_eq_of _ _ rfl hso hpf⟩
        · simp only [if_neg h5]
          exact ⟨trivial, trivial, fun _ =>
            St_eq_of _ _ rfl (by simp [onError]) (by simp [onError, hpf])⟩
      · simp only [if_neg h4]
        exact ⟨trivial, trivial, fun hx => by simp at hx⟩

theorem readLoop_stores_le (s : St) (reads : List (Int × Nat))
    (hwf : ∀ p ∈ reads, p.1 ≤ (HTTP_RECEIVE_BUFFER_SIZE : Int)) :
    ∀ idx ∈ (readLoop s reads).2.2, idx ≤ HTTP_RECEIVE_BUFFER_SIZE := by
  induction reads with
  | nil =>
    intro idx hidx
    simp [readLoop] at hidx
  | cons p rest ih =>
    obtain ⟨ret, np⟩ := p
    have hret : ret ≤ (HTTP_RECEIVE_BUFFER_SIZE : Int) := hwf _ (List.mem_cons_self _ _)
    have hrest := fun q hq => hwf q (List.mem_cons_of_mem _ hq)
    intro idx hidx
    simp only [readLoop] at hidx
    by_cases h1 : 0 < ret
    · rw [if_pos h1] at hidx
      by_cases h2 : np ≠ ret.toNat
      · rw [if_pos h2] at hidx
        simp only [List.mem_singleton] at hidx
        subst hidx
        omega
      · rw [if_neg h2] at hidx
        by_cases h3 : ret < (HTTP_RECEIVE_BUFFER_SIZE : Int)
        · rw [if_pos h3] at hidx
          simp only [List.mem_singleton] at hidx
          subst hidx
          omega
        · rw [if_neg h3] at hidx
          simp only [List.mem_cons] at hidx
          rcases hidx with hidx | hidx
          · subst hidx
            omega
          · exact ih hrest idx hidx
    · rw [if_neg h1] at hidx
      by_cases h4 : ret < 0
      · rw [if_pos h4] at hidx
        by_cases h5 : isWant ret = true
        · rw [if_pos h5] at hidx
          simp at hidx
        · rw [if_neg h5] at hidx
          simp at hidx
      · rw [if_neg h4] at hidx
        simp at hidx

theorem check_fst_true_cases (s : St) (r : Int)
    (h : (check_mbedtls_ssl_write s r).1 = true) :
    (isWant r = true ∧ (check_mbedtls_ssl_write s r).2 = { s with error := r })
    ∨ (isWant r = false ∧ (check_mbedtls_ssl_write s r).2 = onError s (-1)) := by
  rcases hc : check_mbedtls_ssl_write s r with ⟨b, s1⟩
  rw [hc] at h
  dsimp at h
  subst h
  obtain ⟨-, hcase⟩ := check_pair_true s s1 r hc
  rcases hcase with ⟨hw, hs⟩ | ⟨hw, hs⟩
  · left
    exact ⟨hw, hs⟩
  · right
    exact ⟨hw, hs⟩

theorem check_fst_false_pair (s : St) (r : Int)
    (h : ¬ (check_mbedtls_ssl_write s r).1 = true) :
    check_mbedtls_ssl_write s r = (false, s) := by
  rcases hc : check_mbedtls_ssl_write s r with ⟨b, s1⟩
  rw [hc] at h
  dsimp at h
  cases b
  · obtain ⟨hs1, -⟩ := check_pair_false _ _ _ hc
    rw [hs1]
  · simp at h

theorem check_snd_congr (s t : St) (r : Int) (hr : r < 0)
    (hso : s.socketOpen = t.socketOpen) (hpf : s.parserFinished = t.parserFinished) :
    (check_mbedtls_ssl_write s r).2 = (check_mbedtls_ssl_write t r).2 := by
  unfold check_mbedtls_ssl_write
  rw [if_pos hr, if_pos hr]
  by_cases hw : isWant r = true
  · rw [if_pos hw, if_pos hw]
    exact St_eq_of _ _ rfl hso hpf
  · rw [if_neg hw, if_neg hw]
    exact St_eq_of _ _ rfl (by simp [onError]) (by simp [onError, hpf])

/-- Case analysis over every terminating path of `sendModel`: the socket can
only remain open at return on a want-read/want-write path or on the parser
desynchronization path (or when the oracle script is exhausted). -/
theorem sendModel_socket_open_cases (err0 : Int) (body : List Nat) (sc : SendScript) :
    (sendModel err0 body sc).res = SendRes.stuck
    ∨ (sendModel err0 body sc).st.socketOpen = false
    ∨ isWant ((sendModel err0 body sc).st.error) = true
    ∨ (sendModel err0 body sc).st.error = -2101 := by
  unfold sendModel
  by_cases c1 : sc.drbgSeedRet ≠ 0
  · rw [if_pos c1]
    right
    left
    rfl
  · rw [if_neg c1]
    by_cases c2 : sc.crtParseRet ≠ 0
    · rw [if_pos c2]
      right
      left
      rfl
    · rw [if_neg c2]
      by_cases c3 : sc.configRet ≠ 0
      · rw [if_pos c3]
        right
        left
        rfl
      · rw [if_neg c3]
        by_cases c4 : sc.setupRet ≠ 0
        · rw [if_pos c4]
          right
          left
          rfl
        · rw [if_neg c4]
          by_cases c5 : sc.connectRet ≠ NSAPI_ERROR_OK
          · rw [if_pos c5]
            right
            left
            rfl
          · rw [if_neg c5]
            by_cases c6 : sc.handshakeRet < 0
            · rw [if_pos c6]
              by_cases c6w : isWant sc.handshakeRet = true
              · rw [if_pos c6w]
                right
                right
                left
                exact c6w
              · rw [if_neg c6w]
                right
                left
                rfl
            · rw [if_neg c6]
              by_cases c7 : (check_mbedtls_ssl_write (connectedSt err0) sc.headerWriteRet).1 = true
              · rw [if_pos c7]
                rcases check_fst_true_cases _ _ c7 with ⟨hw, hs⟩ | ⟨hw, hs⟩
                · right
                  right
                  left
                  rw [hs]
                  exact hw
                · right
                  left
                  rw [hs]
                  rfl
              · rw [if_neg c7]
                rw [check_fst_false_pair _ _ c7]
                dsimp only []
                rcases hbl : bodyLoop (connectedSt err0) body sc.bodyWriteRets sc.headerWriteRet with
                  ⟨s3, lr, evs⟩ | ⟨s3, evs⟩ | evs <;> dsimp only []
                · obtain ⟨hs3, -, -⟩ := bodyLoop_ok _ _ _ _ _ _ _ hbl
                  subst hs3
                  by_cases c8 : (check_mbedtls_ssl_write (connectedSt err0) lr).1 = true
                  · rw [if_pos c8]
                    rcases check_fst_true_cases _ _ c8 with ⟨hw, hs⟩ | ⟨hw, hs⟩
                    · right
                      right
                      left
                      rw [hs]
                      exact hw
                    · right
                      left
                      rw [hs]
                      rfl
                  · rw [if_neg c8]
                    rw [check_fst_false_pair _ _ c8]
                    dsimp only []
                    rcases hres : (readLoop (connectedSt err0) sc.reads).1 with _ | _ | _
                    · right
                      left
                      rw [readLoop_ok_state (connectedSt err0) sc.reads hres]
                      rfl
                    · rcases readLoop_fail_state (connectedSt err0) sc.reads hres with
                        hst | hst | ⟨r, hw, hst⟩
                      · right
                        left
                        rw [hst]
                        rfl
                      · right
                        right
                        right
                        rw [hst]
                      · right
                        right
                        left
                        rw [hst]
                        exact hw
                    · left
                      rfl
                · rcases bodyLoop_abort _ _ _ _ _ _ hbl with hst | ⟨r, hw, hst⟩
                  · right
                    left
                    rw [hst]
                    rfl
                  · right
                    right
                    left
                    rw [hst]
                    exact hw
                · left
                  rfl

/-- The outcome, write trace and store trace of `sendModel`, and on failure
the final state, do not depend on the value the uninitialized `_error`
member held on entry: every failing step overwrites it. -/
theorem sendModel_err0_congr (err0 err0' : Int) (body : List Nat) (sc : SendScript) :
    (sendModel err0 body sc).res = (sendModel err0' body sc).res
    ∧ (sendModel err0 body sc).writes = (sendModel err0' body sc).writes
    ∧ (sendModel err0 body sc).stores = (sendModel err0' body sc).stores
    ∧ ((sendModel err0 body sc).res = SendRes.fail →
        (sendModel err0 body sc).st = (sendModel err0' body sc).st) := by
  unfold sendModel
  by_cases c1 : sc.drbgSeedRet ≠ 0
  · rw [if_pos c1, if_pos c1]
    exact ⟨rfl, rfl, rfl, fun _ => St_eq_of _ _ rfl rfl rfl⟩
  · rw [if_neg c1, if_neg c1]
    by_cases c2 : sc.crtParseRet ≠ 0
    · rw [if_pos c2, if_pos c2]
      exact ⟨rfl, rfl, rfl, fun _ => St_eq_of _ _ rfl rfl rfl⟩
    · rw [if_neg c2, if_neg c2]
      by_cases c3 : sc.configRet ≠ 0
      · rw [if_pos c3, if_pos c3]
        exact ⟨rfl, rfl, rfl, fun _ => St_eq_of _ _ rfl rfl rfl⟩
      · rw [if_neg c3, if_neg c3]
        by_cases c4 : sc.setupRet ≠ 0
        · rw [if_pos c4, if_pos c4]
          exact ⟨rfl, rfl, rfl, fun _ => St_eq_of _ _ rfl rfl rfl⟩
        · rw [if_neg c4, if_neg c4]
          by_cases c5 : sc.connectRet ≠ NSAPI_ERROR_OK
          · rw [if_pos c5, if_pos c5]
            exact ⟨rfl, rfl, rfl, fun _ => St_eq_of _ _ rfl rfl rfl⟩
          · rw [if_neg c5, if_neg c5]
            by_cases c6 : sc.handshakeRet < 0
            · rw [if_pos c6, if_pos c6]
              by_cases c6w : isWant sc.handshakeRet = true
              · rw [if_pos c6w, if_pos c6w]
                exact ⟨rfl, rfl, rfl, fun _ => St_eq_of _ _ rfl rfl rfl⟩
              · rw [if_neg c6w, if_neg c6w]
                exact ⟨rfl, rfl, rfl, fun _ => St_eq_of _ _ rfl rfl rfl⟩
            · rw [if_neg c6, if_neg c6]
              by_cases c7 : sc.headerWriteRet < 0
              · have e7 : ∀ u : St, (check_mbedtls_ssl_write u sc.headerWriteRet).1 = true :=
                  fun u => by
                    rw [check_fst]
                    simp [c7]
                rw [if_pos (e7 _), if_pos (e7 _)]
                exact ⟨rfl, rfl, rfl, fun _ => check_snd_congr _ _ _ c7 rfl rfl⟩
              · have h0 : (0:Int) ≤ sc.headerWriteRet := by omega
                have en7 : ∀ u : St, ¬ (check_mbedtls_ssl_write u sc.headerWriteRet).1 = true :=
                  fun u => by
                    rw [check_nonneg u _ h0]
                    simp
                rw [if_neg (en7 _), if_neg (en7 _)]
                rw [check_nonneg (connectedSt err0) _ h0, check_nonneg (connectedSt err0') _ h0]
                dsimp only []
                obtain ⟨jok, jab, jst⟩ :=
                  bodyLoop_congr sc.bodyWriteRets (connectedSt err0) (connectedSt err0')
                    body sc.headerWriteRet rfl rfl
                rcases hbl : bodyLoop (connectedSt err0) body sc.bodyWriteRets sc.headerWriteRet with
                  ⟨s3, lr, evs⟩ | ⟨s3, evs⟩ | evs
                · rw [jok _ _ _ hbl]
                  dsimp only []
                  obtain ⟨hs3, -, -⟩ := bodyLoop_ok _ _ _ _ _ _ _ hbl
                  subst hs3
                  by_cases c8 : lr < 0
                  · have e8 : ∀ u : St, (check_mbedtls_ssl_write u lr).1 = true :=
                      fun u => by
                        rw [check_fst]
                        simp [c8]
                    rw [if_pos (e8 _), if_pos (e8 _)]
                    exact ⟨rfl, rfl, rfl, fun _ => check_snd_congr _ _ _ c8 rfl rfl⟩
                  · have h8 : (0:Int) ≤ lr := by omega
                    have en8 : ∀ u : St, ¬ (check_mbedtls_ssl_write u lr).1 = true :=
                      fun u => by
                        rw [check_nonneg u _ h8]
                        simp
                    rw [if_neg (en8 _), if_neg (en8 _)]
                    rw [check_nonneg (connectedSt err0) _ h8, check_nonneg (connectedSt err0') _ h8]
                    dsimp only []
                    obtain ⟨k1, k2, k3⟩ :=
                      readLoop_congr (connectedSt err0) (connectedSt err0') sc.reads rfl rfl
                    exact ⟨k1, rfl, by rw [k2], fun hf => k3 hf⟩
                · rw [jab _ _ hbl]
                  exact ⟨rfl, rfl, rfl, fun _ => rfl⟩
                · rw [jst _ hbl]
                  refine ⟨rfl, rfl, rfl, fun hf => ?_⟩
                  simp at hf

/-! ### Claims -/

/-- Claim C1, counterexample: on the parser-desynchronization failure path
the claim fails.  With a script in which every TLS-setup call succeeds, the
connection and handshake succeed, all writes succeed, and the first read
returns 10 bytes of which the parser consumes only 3, `send` terminates
returning no response with error code -2101 — yet the transport socket is
still open, contradicting the claim that the transport is closed on this
path (the recorded error is not a want-read/want-write code). -/
theorem C1_counterexample_desync_leaves_socket_open :
    (sendModel 0 [] ⟨0, 0, 0, 0, 0, 0, 0, [], 0, [((10:Int), 3)]⟩).res = SendRes.fail
    ∧ (sendModel 0 [] ⟨0, 0, 0, 0, 0, 0, 0, [], 0, [((10:Int), 3)]⟩).st.socketOpen = true
    ∧ get_error (sendModel 0 [] ⟨0, 0, 0, 0, 0, 0, 0, [], 0, [((10:Int), 3)]⟩).st = -2101
    ∧ isWant (get_error (sendModel 0 [] ⟨0, 0, 0, 0, 0, 0, 0, [], 0, [((10:Int), 3)]⟩).st)
        = false := by
  decide

/-- Claim C1, amended: for every terminating call to `send`, the transport
connection is closed by the time `send` returns, except when a retryable
want-read/want-write condition is in flight and except on the
parser-desynchronization failure path (error -2101), on both of which the
transport remains open. -/
theorem C1_transport_closed_unless_want_or_desync (err0 : Int) (body : List Nat)
    (sc : SendScript) (h : (sendModel err0 body sc).res ≠ SendRes.stuck) :
    (sendModel err0 body sc).st.socketOpen = true →
    isWant (get_error (sendModel err0 body sc).st) = true
    ∨ get_error (sendModel err0 body sc).st = -2101 := by
  intro hopen
  rcases sendModel_socket_open_cases err0 body sc with hx | hx | hx | hx
  · exact absurd hx h
  · rw [hopen] at hx
    simp at hx
  · left
    exact hx
  · right
    exact hx

/-- Witness for the amended C1 theorem at a concrete failing script. -/
theorem C1_transport_closed_unless_want_or_desync_witness :
    isWant (get_error (sendModel 0 [] ⟨0, 0, 0, 0, 0, 0, 0, [], 0, [((10:Int), 3)]⟩).st) = true
    ∨ get_error (sendModel 0 [] ⟨0, 0, 0, 0, 0, 0, 0, [], 0, [((10:Int), 3)]⟩).st = -2101 :=
  C1_transport_closed_unless_want_or_desync 0 [] ⟨0, 0, 0, 0, 0, 0, 0, [], 0, [((10:Int), 3)]⟩
    (by decide) (by decide)

/-- Claim C2: the claim fails on the code.  The BIO send callback
`ssl_send` translates a transport would-block (`NSAPI_ERROR_WOULD_BLOCK`)
into a return of the full requested length `len` — i.e. it reports the
would-blocked write as a successful write of the requested length, so the
want-write retry policy of `check_mbedtls_ssl_write` can never fire for a
transport would-block on a body-chunk write.  Contrast `ssl_recv`, which
correctly maps a would-block to `MBEDTLS_ERR_SSL_WANT_READ` (the behavior
the handshake path relies on). -/
theorem C2_would_block_write_reported_as_full_write :
    ssl_send NSAPI_ERROR_WOULD_BLOCK 4000 = 4000
    ∧ ssl_send NSAPI_ERROR_WOULD_BLOCK 4000 ≠ MBEDTLS_ERR_SSL_WANT_WRITE
    ∧ ssl_recv NSAPI_ERROR_WOULD_BLOCK = MBEDTLS_ERR_SSL_WANT_READ := by
  decide

/-- Claim C3: in any reached iteration of the response-read loop, if the
parser reports consuming fewer bytes than were supplied, the loop fails
(send returns no response) and the recorded error code is -2101
(ResponseParseError). -/
theorem C3_parser_desync_yields_parse_error (s : St) (ret : Int) (nparsed : Nat)
    (rest : List (Int × Nat)) (h1 : 0 < ret) (h2 : nparsed < ret.toNat) :
    (readLoop s ((ret, nparsed) :: rest)).1 = SendRes.fail
    ∧ get_error (readLoop s ((ret, nparsed) :: rest)).2.1 = -2101 := by
  have hne : nparsed ≠ ret.toNat := Nat.ne_of_lt h2
  simp only [readLoop, if_pos h1, if_pos hne]
  exact ⟨trivial, rfl⟩

/-- Witness for C3 at a concrete read of 10 bytes with 3 consumed. -/
theorem C3_parser_desync_yields_parse_error_witness :
    (readLoop (initSt 0) [((10:Int), 3)]).1 = SendRes.fail
    ∧ get_error (readLoop (initSt 0) [((10:Int), 3)]).2.1 = -2101 :=
  C3_parser_desync_yields_parse_error (initSt 0) 10 3 [] (by decide) (by decide)

/-- Claim C4: once TLS setup and connect succeed, a handshake that reports
want-read or want-write makes `send` record that code as the last error and
return no response with the transport still open; a handshake failing with
any other negative code makes `send` close the transport (via onError),
record an error (-1), and return no response. -/
theorem C4_handshake_want_retryable_fatal_closes (err0 : Int) (body : List Nat)
    (sc : SendScript) (h1 : sc.drbgSeedRet = 0) (h2 : sc.crtParseRet = 0)
    (h3 : sc.configRet = 0) (h4 : sc.setupRet = 0) (h5 : sc.connectRet = NSAPI_ERROR_OK) :
    (isWant sc.handshakeRet = true →
      (sendModel err0 body sc).res = SendRes.fail
      ∧ get_error (sendModel err0 body sc).st = sc.handshakeRet
      ∧ (sendModel err0 body sc).st.socketOpen = true)
    ∧ (sc.handshakeRet < 0 → isWant sc.handshakeRet = false →
      (sendModel err0 body sc).res = SendRes.fail
      ∧ (sendModel err0 body sc).st.socketOpen = false
      ∧ get_error (sendModel err0 body sc).st = -1) := by
  unfold sendModel
  rw [if_neg (by simp [h1] : ¬ sc.drbgSeedRet ≠ 0),
     if_neg (by simp [h2] : ¬ sc.crtParseRet ≠ 0),
     if_neg (by simp [h3] : ¬ sc.configRet ≠ 0),
     if_neg (by simp [h4] : ¬ sc.setupRet ≠ 0),
     if_neg (by simp [h5] : ¬ sc.connectRet ≠ NSAPI_ERROR_OK)]
  constructor
  · intro hw
    have hneg : sc.handshakeRet < 0 := isWant_neg _ hw
    rw [if_pos hneg, if_pos hw]
    exact ⟨rfl, rfl, rfl⟩
  · intro hneg hnw
    rw [if_pos hneg, if_neg (by simp [hnw])]
    exact ⟨rfl, rfl, rfl⟩

/-- Witness for C4 at a concrete want-read handshake script. -/
theorem C4_handshake_want_retryable_fatal_closes_witness :
    (sendModel 0 [] ⟨0, 0, 0, 0, 0, MBEDTLS_ERR_SSL_WANT_READ, 0, [], 0, []⟩).res = SendRes.fail
    ∧ get_error (sendModel 0 [] ⟨0, 0, 0, 0, 0, MBEDTLS_ERR_SSL_WANT_READ, 0, [], 0, []⟩).st
        = MBEDTLS_ERR_SSL_WANT_READ
    ∧ (sendModel 0 [] ⟨0, 0, 0, 0, 0, MBEDTLS_ERR_SSL_WANT_READ, 0, [], 0, []⟩).st.socketOpen
        = true :=
  (C4_handshake_want_retryable_fatal_closes 0 []
      ⟨0, 0, 0, 0, 0, MBEDTLS_ERR_SSL_WANT_READ, 0, [], 0, []⟩
      rfl rfl rfl rfl rfl).1 (by decide)

/-- Claim C5: whenever the body-write loop runs to completion on a body
larger than the 4000-byte chunking threshold, the body is passed to
`mbedtls_ssl_write` as a sequence of chunk writes of at most 4000 bytes
each, there are at least two of them, and their concatenation is exactly
the original body. -/
theorem C5_body_chunks_concatenate_to_body (s s2 : St) (body : List Nat)
    (rets : List Int) (lr lr2 : Int) (evs : List WriteEv)
    (hlen : CHUNK_SIZE < body.length)
    (hok : bodyLoop s body rets lr = BodyOut.ok s2 lr2 evs) :
    (∀ c ∈ chunkDatas evs, c.length ≤ CHUNK_SIZE)
    ∧ (chunkDatas evs).flatten = body
    ∧ 2 ≤ (chunkDatas evs).length := by
  obtain ⟨-, hevs, -⟩ := bodyLoop_ok rets s body lr lr2 s2 evs hok
  subst hevs
  rw [chunkDatas_map_chunk]
  exact ⟨fun c hc => bodyChunks_mem_length body c hc, bodyChunks_join body,
    bodyChunks_two_le body hlen⟩

/-- Witness for C5 on a 4001-byte body split into a 4000-byte and a
1-byte chunk. -/
theorem C5_body_chunks_concatenate_to_body_witness :
    (∀ c ∈ chunkDatas [WriteEv.chunk (List.replicate 4000 0),
        WriteEv.chunk (List.replicate 1 0)], c.length ≤ CHUNK_SIZE)
    ∧ (chunkDatas [WriteEv.chunk (List.replicate 4000 0),
        WriteEv.chunk (List.replicate 1 0)]).flatten = List.replicate 4001 0
    ∧ 2 ≤ (chunkDatas [WriteEv.chunk (List.replicate 4000 0),
        WriteEv.chunk (List.replicate 1 0)]).length :=
  C5_body_chunks_concatenate_to_body (initSt 0) (initSt 0) (List.replicate 4001 0)
    [0, 0] 0 0 [WriteEv.chunk (List.replicate 4000 0), WriteEv.chunk (List.replicate 1 0)]
    (by norm_num [CHUNK_SIZE])
    (by norm_num [bodyLoop, check_nonneg, List.take_replicate, List.drop_replicate, CHUNK_SIZE])

/-- Claim C6: one step of the response-read loop.  A successful read
shorter than the receive buffer stops the loop with success, finalizing the
parser and closing the transport (so the populated response is returned); a
read filling the buffer exactly continues the loop; a read reporting a hard
(non-want) error stops the loop with failure and closes the transport; a
read returning 0 stops with success.  The success epilogue marks the parser
finalized and the socket closed. -/
theorem C6_read_loop_stop_conditions (s : St) (ret : Int) (np : Nat)
    (rest : List (Int × Nat)) :
    (0 < ret → np = ret.toNat → ret < (HTTP_RECEIVE_BUFFER_SIZE : Int) →
      readLoop s ((ret, np) :: rest) = (SendRes.ok, finishSuccess s, [np]))
    ∧ (0 < ret → np = ret.toNat → ¬ ret < (HTTP_RECEIVE_BUFFER_SIZE : Int) →
      readLoop s ((ret, np) :: rest) =
        ((readLoop s rest).1, (readLoop s rest).2.1, np :: (readLoop s rest).2.2))
    ∧ (ret < 0 → isWant ret = false →
      readLoop s ((ret, np) :: rest) = (SendRes.fail, onError s (-1), []))
    ∧ (ret = 0 → readLoop s ((ret, np) :: rest) = (SendRes.ok, finishSuccess s, []))
    ∧ (finishSuccess s).parserFinished = true
    ∧ (finishSuccess s).socketOpen = false := by
  refine ⟨?_, ?_, ?_, ?_, rfl, rfl⟩
  · intro hpos hnp hlt
    subst hnp
    simp only [readLoop, if_pos hpos, if_neg (by simp : ¬ ret.toNat ≠ ret.toNat), if_pos hlt]
  · intro hpos hnp hge
    subst hnp
    simp only [readLoop, if_pos hpos, if_neg (by simp : ¬ ret.toNat ≠ ret.toNat), if_neg hge]
  · intro hneg hnw
    have hnpos : ¬ 0 < ret := by omega
    have hnw2 : ¬ isWant ret = true := by simp [hnw]
    simp only [readLoop, if_neg hnpos, if_pos hneg, if_neg hnw2]
  · intro h0
    subst h0
    simp only [readLoop]
    norm_num

/-- Witness for C6: a 5-byte read (fully parsed) stops the loop with
success. -/
theorem C6_read_loop_stop_conditions_witness :
    readLoop (initSt 0) [((5:Int), (5:Nat))] = (SendRes.ok, finishSuccess (initSt 0), [5]) :=
  (C6_read_loop_stop_conditions (initSt 0) 5 5 []).1 (by decide) (by decide) (by decide)

/-- Claim C7: for every call to `send` that reaches and completes body
transmission (TLS setup, connect and handshake succeeded, the request write
and all body-chunk writes returned non-negative values), the write trace is
exactly the request write, the body chunks, and then the trailing CRLF
write — regardless of the body (including an empty one). -/
theorem C7_trailing_crlf_written_after_body (err0 : Int) (body : List Nat)
    (sc : SendScript) (h1 : sc.drbgSeedRet = 0) (h2 : sc.crtParseRet = 0)
    (h3 : sc.configRet = 0) (h4 : sc.setupRet = 0) (h5 : sc.connectRet = NSAPI_ERROR_OK)
    (h6 : ¬ sc.handshakeRet < 0) (h7 : 0 ≤ sc.headerWriteRet)
    (h8 : ∀ r ∈ sc.bodyWriteRets, 0 ≤ r)
    (h9 : (bodyChunks body).length ≤ sc.bodyWriteRets.length) :
    (sendModel err0 body sc).writes =
      WriteEv.header :: (bodyChunks body).map WriteEv.chunk ++ [WriteEv.crlf] := by
  obtain ⟨lr2, hok⟩ :=
    bodyLoop_all_ok sc.bodyWriteRets (connectedSt err0) body sc.headerWriteRet h8 h9
  unfold sendModel
  rw [if_neg (by simp [h1] : ¬ sc.drbgSeedRet ≠ 0),
     if_neg (by simp [h2] : ¬ sc.crtParseRet ≠ 0),
     if_neg (by simp [h3] : ¬ sc.configRet ≠ 0),
     if_neg (by simp [h4] : ¬ sc.setupRet ≠ 0),
     if_neg (by simp [h5] : ¬ sc.connectRet ≠ NSAPI_ERROR_OK),
     if_neg h6]
  have hcb : check_mbedtls_ssl_write (connectedSt err0) sc.headerWriteRet
      = (false, connectedSt err0) := check_nonneg _ _ h7
  rw [if_neg (by simp [hcb] : ¬ (check_mbedtls_ssl_write (connectedSt err0)
      sc.headerWriteRet).1 = true)]
  rw [hcb]
  dsimp only []
  rw [hok]
  dsimp only []
  split <;> rfl

/-- Witness for C7 with an empty body: the trace is the request write
followed immediately by the trailing CRLF write. -/
theorem C7_trailing_crlf_written_after_body_witness :
    (sendModel 0 [] ⟨0, 0, 0, 0, 0, 0, 0, [], 0, []⟩).writes =
      WriteEv.header :: (bodyChunks []).map WriteEv.chunk ++ [WriteEv.crlf] :=
  C7_trailing_crlf_written_after_body 0 [] ⟨0, 0, 0, 0, 0, 0, 0, [], 0, []⟩
    rfl rfl rfl rfl rfl (by decide) (by decide) (by simp) (by simp [bodyChunks_nil])

/-- Claim C8: the error state is a single last-error code that every
failing step overwrites: the outcome of `send` does not depend on the value
the error field held on entry, and after a failed `send` the value returned
by `get_error` is determined by the failing step alone (it is the same for
any two initial error values). -/
theorem C8_single_error_code_overwritten (err0 err0' : Int) (body : List Nat)
    (sc : SendScript) :
    (sendModel err0 body sc).res = (sendModel err0' body sc).res
    ∧ ((sendModel err0 body sc).res = SendRes.fail →
        get_error (sendModel err0 body sc).st = get_error (sendModel err0' body sc).st) := by
  obtain ⟨h1, -, -, h4⟩ := sendModel_err0_congr err0 err0' body sc
  refine ⟨h1, fun hf => ?_⟩
  unfold get_error
  rw [h4 hf]

/-- Witness for C8: a failed seeding step (code 7) yields the same
`get_error` value for two different initial error-field values. -/
theorem C8_single_error_code_overwritten_witness :
    get_error (sendModel 5 [] ⟨7, 0, 0, 0, 0, 0, 0, [], 0, []⟩).st
      = get_error (sendModel 99 [] ⟨7, 0, 0, 0, 0, 0, 0, [], 0, []⟩).st :=
  (C8_single_error_code_overwritten 5 99 [] ⟨7, 0, 0, 0, 0, 0, 0, [], 0, []⟩).2 (by decide)

/-- Claim C9, counterexample: when a read fills the receive buffer
completely (ret = HTTP_RECEIVE_BUFFER_SIZE = 1024), the null-terminator
store recv_buffer[ret] is performed at index 1024, which is NOT within the
bounds of the 1024-byte buffer — the claim fails exactly at
ret = HTTP_RECEIVE_BUFFER_SIZE. -/
theorem C9_counterexample_full_buffer_store_oob :
    (readLoop (initSt 0) [((1024:Int), 1024), ((0:Int), 0)]).2.2 = [1024]
    ∧ ¬ storeInBounds 1024
    ∧ 1024 = HTTP_RECEIVE_BUFFER_SIZE := by
  decide

/-- Claim C9, amended: every null-terminator store index produced by the
read loop is at most HTTP_RECEIVE_BUFFER_SIZE, and it lies within the
bounds of the HTTP_RECEIVE_BUFFER_SIZE-byte buffer precisely when it is
strictly smaller than HTTP_RECEIVE_BUFFER_SIZE — i.e. the store is
in-bounds for every ret < HTTP_RECEIVE_BUFFER_SIZE and one past the end
when a read fills the buffer completely. -/
theorem C9_store_index_bounds (s : St) (reads : List (Int × Nat))
    (hwf : ∀ p ∈ reads, p.1 ≤ (HTTP_RECEIVE_BUFFER_SIZE : Int)) :
    ∀ idx ∈ (readLoop s reads).2.2,
      idx ≤ HTTP_RECEIVE_BUFFER_SIZE
      ∧ (storeInBounds idx ↔ idx ≠ HTTP_RECEIVE_BUFFER_SIZE) := by
  intro idx hidx
  have hle := readLoop_stores_le s reads hwf idx hidx
  refine ⟨hle, ?_⟩
  unfold storeInBounds
  unfold HTTP_RECEIVE_BUFFER_SIZE at hle ⊢
  omega

/-- Witness for the amended C9 theorem at a concrete 5-byte read, whose
store index 5 is in bounds. -/
theorem C9_store_index_bounds_witness :
    (5:Nat) ≤ HTTP_RECEIVE_BUFFER_SIZE
    ∧ (storeInBounds 5 ↔ (5:Nat) ≠ HTTP_RECEIVE_BUFFER_SIZE) :=
  C9_store_index_bounds (initSt 0) [((5:Int), 5)] (by decide) 5 (by decide)

/-- Claim C10: the return value of the trailing-CRLF write is discarded
(the check after it re-examines the stale previous return value), so the
entire observable result of `send` — outcome, final state, write trace,
store trace — is invariant in the scripted return value of that write: a
failing CRLF write alone never records an error and never suppresses the
response. -/
theorem C10_crlf_write_result_discarded (err0 : Int) (body : List Nat)
    (sc : SendScript) (x y : Int) :
    sendModel err0 body { sc with crlfWriteRet := x }
      = sendModel err0 body { sc with crlfWriteRet := y } := rfl

end HttpsRequest
